import Mathlib

/-!
Shallow embedding of the juju CAAS application provisioner worker
(`caasapplicationprovisioner` package) and of the blocking operation queue,
for verification of the natural-language specification against the code.

Each Go function relevant to the claims is translated to an executable Lean
function over an explicit environment that records the results the external
collaborators (the `Facade`, `UnitFacade` and substrate `Application`
handle) would return, and each function's observable effects (substrate
calls made, provisioning-state writes, status updates) are returned in an
output record so that frame and effect properties can be stated directly.
-/

namespace CaasApp

/-- Error kinds the worker's code distinguishes via `errors.Is` /
`errors.IsNotFound` / `params.IsCodeTryAgain`: `NotFound`, the package's
`tryAgain` sentinel, and every other (fatal) error. -/
inductive EKind where
  | notFound
  | tryAgain
  | fatal
deriving DecidableEq, Repr

/-- Outcome of a fallible call: `none` models a `nil` Go error. -/
abbrev Res := Option EKind

/-- Result of a call that returns a value or an error. -/
inductive ROr (α : Type) where
  | ok (a : α)
  | err (e : EKind)
deriving DecidableEq, Repr

/-- `life.Value`: Alive, Dying or Dead. -/
inductive Life where
  | alive
  | dying
  | dead
deriving DecidableEq, Repr

/-- `params.CAASApplicationProvisioningState`: the persisted scaling flag and
scale target. -/
structure PS where
  scaling : Bool
  scaleTarget : Nat
deriving DecidableEq, Repr

/-- A facade-side unit (`params.CAASUnit`) together with the result the
facade's `Life(unit)` call returns for it inside `reconcileDeadUnitScale`. -/
structure CUnit where
  tag : String
  lifeRes : ROr Life
deriving DecidableEq, Repr

/-- `maxRetries` constant of the event loop. -/
def maxRetries : Nat := 20

/-- `retryDelay` constant of the event loop, in seconds. -/
def retryDelaySec : Nat := 3

/-- Environment of one `reconcileDeadUnitScale` invocation: the results of
every external call the function can make, in program order. -/
structure RDEnv where
  /-- `a.facade.Units(a.name)` -/
  unitsRes : ROr (List CUnit)
  /-- `app.Scale(desiredScale)` -/
  scaleRes : Res
  /-- `app.State()`: the replica ids on success -/
  stateRes : ROr (List String)
  /-- `a.facade.RemoveUnit(tag)` per unit tag -/
  removeRes : String → Res
  /-- `a.facade.SetProvisioningState(...)` -/
  setPsRes : Res

/-- Observable outcome of `reconcileDeadUnitScale`. -/
structure RDOut where
  /-- the Go return value (`none` = nil) -/
  res : Res
  /-- whether `app.Scale` was invoked -/
  scaleCalled : Bool
  /-- tags for which `facade.RemoveUnit` was invoked, in order -/
  removed : List String
  /-- the argument of the `facade.SetProvisioningState` call, if made -/
  psSet : Option PS
  /-- the worker's in-memory `a.ps` after the call -/
  ps : PS
deriving DecidableEq, Repr

/-- The dead-unit collection loop of `reconcileDeadUnitScale`: walks the
units in order, returns the first `facade.Life` error, otherwise the
sublist of units whose life is Dead. -/
def collectDead : List CUnit → ROr (List CUnit)
  | [] => .ok []
  | u :: rest =>
    match u.lifeRes with
    | .err e => .err e
    | .ok l =>
      match collectDead rest with
      | .err e => .err e
      | .ok ds => .ok (if l = Life.dead then u :: ds else ds)

/-- The `RemoveUnit` loop: each dead unit is removed via the facade; a
`NotFound` error is suppressed, any other error aborts. Returns the tags
for which `RemoveUnit` was invoked and the aborting error, if any. -/
def removeDead (f : String → Res) : List String → List String × Res
  | [] => ([], none)
  | t :: ts =>
    match f t with
    | none =>
      let r := removeDead f ts
      (t :: r.1, r.2)
    | some EKind.notFound =>
      let r := removeDead f ts
      (t :: r.1, r.2)
    | some e => ([t], some e)

/-- `updateProvisioningState`: calls `facade.SetProvisioningState(newPs)`;
a code-try-again reply yields the `tryAgain` sentinel and any error leaves
the in-memory `a.ps` unchanged; on success `a.ps := newPs`. Returns the new
in-memory state and the Go return value. -/
def updateProvisioningState (ps : PS) (setRes : Res) (newPs : PS) : PS × Res :=
  match setRes with
  | none => (newPs, none)
  | some e => (ps, some e)

/-- Continuation of `reconcileDeadUnitScale` after the `app.Scale` call:
reads `app.State()` (NotFound suppressed, leaving the zero value), yields
`tryAgain` while the substrate reports more replicas than the target,
removes the dead units via the facade and clears the provisioning state. -/
def reconcileAfterScale (ps : PS) (env : RDEnv) (desiredScale : Nat)
    (deadUnits : List CUnit) : RDOut :=
  let stErr : Res :=
    match env.stateRes with
    | .ok _ => none
    | .err EKind.notFound => none
    | .err e => some e
  match stErr with
  | some e => { res := some e, scaleCalled := true, removed := [], psSet := none, ps := ps }
  | none =>
    let replicas : List String :=
      match env.stateRes with
      | .ok rs => rs
      | .err _ => []
    if replicas.length > desiredScale then
      { res := some EKind.tryAgain, scaleCalled := true, removed := [], psSet := none, ps := ps }
    else
      let rem := removeDead env.removeRes (deadUnits.map CUnit.tag)
      match rem.2 with
      | some e =>
        { res := some e, scaleCalled := true, removed := rem.1, psSet := none, ps := ps }
      | none =>
        let upd := updateProvisioningState ps env.setPsRes ⟨false, 0⟩
        { res := upd.2, scaleCalled := true, removed := rem.1,
          psSet := some ⟨false, 0⟩, ps := upd.1 }

/-- `reconcileDeadUnitScale`: translation of the Go function. Reads units,
returns nil when not scaling, computes `unitsToRemove := len(units) −
scaleTarget` (replaced by the dead-unit count when non-positive), proceeds
only when that number equals the dead-unit count, scales the substrate to
the target (NotFound suppressed), yields tryAgain while the substrate still
reports more replicas than the target, removes the dead units (NotFound
suppressed) and clears the provisioning state. -/
def reconcileDeadUnitScale (ps : PS) (env : RDEnv) : RDOut :=
  match env.unitsRes with
  | .err e => { res := some e, scaleCalled := false, removed := [], psSet := none, ps := ps }
  | .ok units =>
    if ps.scaling = false then
      { res := none, scaleCalled := false, removed := [], psSet := none, ps := ps }
    else
      let desiredScale := ps.scaleTarget
      let unitsToRemove0 : Int := (units.length : Int) - (desiredScale : Int)
      match collectDead units with
      | .err e => { res := some e, scaleCalled := false, removed := [], psSet := none, ps := ps }
      | .ok deadUnits =>
        let unitsToRemove : Int :=
          if unitsToRemove0 ≤ 0 then (deadUnits.length : Int) else unitsToRemove0
        if unitsToRemove ≠ (deadUnits.length : Int) then
          { res := none, scaleCalled := false, removed := [], psSet := none, ps := ps }
        else
          match env.scaleRes with
          | some EKind.notFound => reconcileAfterScale ps env desiredScale deadUnits
          | some e =>
            { res := some e, scaleCalled := true, removed := [], psSet := none, ps := ps }
          | none => reconcileAfterScale ps env desiredScale deadUnits

/-- Environment of one `ensureScale` invocation: results of the external
calls the function can make, in program order. -/
structure ESEnv where
  /-- `a.unitFacade.ApplicationScale(a.name)` (read only when Alive) -/
  appScaleRes : ROr Nat
  /-- `a.facade.SetProvisioningState(⟨true, desired⟩)` -/
  setPsRes1 : Res
  /-- `a.facade.Units(a.name)`: the unit tags -/
  unitsRes : ROr (List String)
  /-- `app.Scale(a.ps.ScaleTarget)` -/
  scaleRes : Res
  /-- `a.facade.SetProvisioningState(⟨false, 0⟩)` -/
  setPsRes2 : Res
  /-- `app.UnitsToRemove(a.ps.ScaleTarget)` -/
  unitsToRemoveRes : ROr (List String)
  /-- `a.facade.DestroyUnits(unitsToDestroy)` -/
  destroyRes : Res

/-- Observable outcome of `ensureScale`. -/
structure ESOut where
  /-- the Go return value (`none` = nil) -/
  res : Res
  /-- arguments of the `facade.SetProvisioningState` calls made, in order -/
  psSetCalls : List PS
  /-- argument of the `app.Scale` call, if made -/
  scaleCalled : Option Nat
  /-- argument of the `facade.DestroyUnits` call, if made -/
  destroyed : Option (List String)
  /-- the worker's in-memory `a.ps` after the call -/
  ps : PS
deriving DecidableEq, Repr

/-- The desired-scale computation of `ensureScale`: read from the
`UnitFacade` when Alive, `0` when Dying or Dead. -/
def desiredScaleOf (lf : Life) (env : ESEnv) : ROr Nat :=
  match lf with
  | Life.alive => env.appScaleRes
  | Life.dying => .ok 0
  | Life.dead => .ok 0

/-- `ensureScale`: translation of the Go function. Computes the desired
scale, enters `{scaling: true, scaleTarget: desired}` when not already
scaling or not Alive, reads the units, scales up (and clears the flag) when
the target is at least the unit count, otherwise destroys the units the
substrate nominates and yields `tryAgain` when the pending target is stale. -/
def ensureScale (lf : Life) (ps : PS) (env : ESEnv) : ESOut :=
  match desiredScaleOf lf env with
  | .err e =>
    { res := some e, psSetCalls := [], scaleCalled := none, destroyed := none, ps := ps }
  | .ok desiredScale =>
    let doSet : Bool := ps.scaling = false || lf ≠ Life.alive
    let calls1 : List PS := if doSet then [⟨true, desiredScale⟩] else []
    let upd1 := updateProvisioningState ps env.setPsRes1 ⟨true, desiredScale⟩
    if doSet ∧ upd1.2 ≠ none then
      { res := upd1.2, psSetCalls := calls1, scaleCalled := none, destroyed := none, ps := ps }
    else
      let ps1 : PS := if doSet then upd1.1 else ps
      match env.unitsRes with
      | .err e =>
        { res := some e, psSetCalls := calls1, scaleCalled := none, destroyed := none, ps := ps1 }
      | .ok units =>
        if ps1.scaleTarget ≥ units.length then
          match env.scaleRes with
          | some e =>
            { res := some e, psSetCalls := calls1, scaleCalled := some ps1.scaleTarget,
              destroyed := none, ps := ps1 }
          | none =>
            let upd2 := updateProvisioningState ps1 env.setPsRes2 ⟨false, 0⟩
            { res := upd2.2, psSetCalls := calls1 ++ [⟨false, 0⟩],
              scaleCalled := some ps1.scaleTarget, destroyed := none, ps := upd2.1 }
        else
          match env.unitsToRemoveRes with
          | .err EKind.notFound =>
            { res := none, psSetCalls := calls1, scaleCalled := none,
              destroyed := none, ps := ps1 }
          | .err e =>
            { res := some e, psSetCalls := calls1, scaleCalled := none,
              destroyed := none, ps := ps1 }
          | .ok unitsToDestroy =>
            let destroyed : Option (List String) :=
              if unitsToDestroy.length > 0 then some unitsToDestroy else none
            if unitsToDestroy.length > 0 ∧ env.destroyRes ≠ none then
              { res := env.destroyRes, psSetCalls := calls1, scaleCalled := none,
                destroyed := destroyed, ps := ps1 }
            else if ps1.scaleTarget ≠ desiredScale then
              { res := some EKind.tryAgain, psSetCalls := calls1, scaleCalled := none,
                destroyed := destroyed, ps := ps1 }
            else
              { res := none, psSetCalls := calls1, scaleCalled := none,
                destroyed := destroyed, ps := ps1 }

/-- Application status values the worker sets. -/
inductive StVal where
  | error
  | waiting
  | active
deriving DecidableEq, Repr

/-- `caas.MountConfig`. -/
structure MountCfg where
  storageName : String
  path : String
deriving DecidableEq, Repr

/-- `caas.ContainerConfig`. -/
structure ContainerCfg where
  name : String
  image : String
  mounts : List MountCfg
deriving DecidableEq, Repr

/-- `caas.ApplicationConfig`: the structural snapshot compared with
`a.lastApplied` by `reflect.DeepEqual` in `alive`. -/
structure AppConfig where
  isPrivateImageRepo : Bool
  introductionSecret : String
  agentVersion : String
  agentImagePath : String
  controllerAddresses : String
  controllerCertBundle : String
  resourceTags : List (String × String)
  constraints : String
  filesystems : List String
  devices : List String
  charmBaseImagePath : String
  containers : List (String × ContainerCfg)
  charmModifiedVersion : Int
  trust : Bool
  initialScale : Int
deriving DecidableEq, Repr

/-- Observable outcome of the comparison-and-ensure tail of `alive`. -/
structure AliveOut where
  /-- whether `app.Ensure(config)` was invoked -/
  ensureCalled : Bool
  /-- the worker's `a.lastApplied` after the call -/
  lastApplied : AppConfig
  /-- the `SetOperatorStatus` call made, if any -/
  statusSet : Option (StVal × String)
  /-- the reason logged: unchanged, deployed or updated -/
  reason : String
  /-- the Go return value: `none` = nil, `some msg` = error -/
  res : Option String
deriving DecidableEq, Repr

/-- Tail of `alive` once the fresh `ApplicationConfig` has been constructed:
`reflect.DeepEqual` comparison with `lastApplied`, the `Ensure` call on
inequality, the Error status on `Ensure` failure, and the commit of
`lastApplied` on success. `ensureRes` is the result `app.Ensure(config)`
would return (`some msg` = an error whose message is `msg`); `appExists` is
the previously read `appState.Exists`. -/
def aliveTail (lastApplied config : AppConfig) (appExists : Bool)
    (ensureRes : Option String) : AliveOut :=
  if config = lastApplied then
    { ensureCalled := false, lastApplied := lastApplied, statusSet := none,
      reason := "unchanged", res := none }
  else
    match ensureRes with
    | some msg =>
      { ensureCalled := true, lastApplied := lastApplied,
        statusSet := some (StVal.error, msg), reason := "unchanged", res := some msg }
    | none =>
      { ensureCalled := true, lastApplied := config, statusSet := none,
        reason := if appExists then "updated" else "deployed", res := none }

/-- `refreshApplicationStatus`: translation of the Go function. Not-Alive
lives do nothing; NotFound from the substrate state or the facade units
reads does nothing; otherwise units whose agent status string equals
`"active"` are counted and the status is set to Waiting or Active.
`stateRes` carries `st.DesiredReplicas`, `unitsRes` the per-unit agent
status strings, `setRes` the `SetOperatorStatus` result. -/
def refreshApplicationStatus (appLife : Life) (stateRes : ROr Int)
    (unitsRes : ROr (List String)) (setRes : Res) :
    Option (StVal × String) × Res :=
  if appLife ≠ Life.alive then (none, none)
  else
    match stateRes with
    | .err EKind.notFound => (none, none)
    | .err e => (none, some e)
    | .ok desiredReplicas =>
      match unitsRes with
      | .err EKind.notFound => (none, none)
      | .err e => (none, some e)
      | .ok agentStatuses =>
        let readyUnitsCount := (agentStatuses.filter (fun s => s = "active")).length
        if desiredReplicas > 0 ∧ desiredReplicas > (readyUnitsCount : Int) then
          (some (StVal.waiting, "waiting for units to settle down"), setRes)
        else
          (some (StVal.active, ""), setRes)

/-- `retry.CallArgs.Attempts` in `waitForTerminated`. -/
def waitAttempts : Nat := 60

/-- `retry.CallArgs.Delay` in `waitForTerminated`, in seconds. -/
def waitDelaySec : Nat := 3

/-- `retry.CallArgs.MaxDuration` in `waitForTerminated`, in seconds. -/
def waitMaxDurationSec : Nat := 180

/-- Verdict of one `existsFunc` evaluation inside `waitForTerminated`. -/
inductive Verdict where
  | success
  | retry
  | fatalE (e : EKind)
deriving DecidableEq, Repr

/-- `existsFunc`: an `app.Exists()` error propagates (fatal unless it is the
`tryAgain` sentinel, which the retry spec treats as non-fatal); a
non-existing application is success; an existing non-terminating
application is a hard error; an existing terminating one yields `tryAgain`.
The input is the `app.Exists()` result as `(exists, terminating)`. -/
def existsVerdict : ROr (Bool × Bool) → Verdict
  | .err EKind.tryAgain => .retry
  | .err e => .fatalE e
  | .ok (ex, term) =>
    if ex = false then .success
    else if term = false then .fatalE EKind.fatal
    else .retry

/-- Outcome of the bounded retry in `waitForTerminated`. -/
inductive WaitOutcome where
  | terminated (attempts : Nat)
  | failed (e : EKind) (attempts : Nat)
  | attemptsExceeded
  | durationExceeded
deriving DecidableEq, Repr

/-- The `retry.Call` loop of `waitForTerminated`: at most `fuel` calls of
`existsFunc` starting at attempt index `i`, sleeping `waitDelaySec` between
attempts and stopping when the total sleep would exceed
`waitMaxDurationSec`. -/
def waitLoop (states : Nat → ROr (Bool × Bool)) : Nat → Nat → WaitOutcome
  | 0, _ => .attemptsExceeded
  | fuel + 1, i =>
    match existsVerdict (states i) with
    | .success => .terminated (i + 1)
    | .fatalE e => .failed e (i + 1)
    | .retry =>
      if fuel = 0 then .attemptsExceeded
      else if waitDelaySec * (i + 1) > waitMaxDurationSec then .durationExceeded
      else waitLoop states fuel (i + 1)

/-- `waitForTerminated`: the bounded retry with 60 attempts, 3 s delay and
3 min cap, where `states i` is the `app.Exists()` result of attempt `i`. -/
def waitForTerminated (states : Nat → ROr (Bool × Bool)) : WaitOutcome :=
  waitLoop states waitAttempts 0

/-- The Go return value of `waitForTerminated`. -/
def waitRes : WaitOutcome → Res
  | .terminated _ => none
  | .failed e _ => some e
  | .attemptsExceeded => some EKind.fatal
  | .durationExceeded => some EKind.fatal

/-- Steps of the `dead` decision, in the order the code performs them. -/
inductive DAct where
  | dyingA
  | deleteA
  | waitA
  | clearA
  | flushA
deriving DecidableEq, Repr

/-- Observable outcome of `dead`. -/
structure DeadOut where
  /-- the steps performed, in order -/
  trace : List DAct
  /-- the Go return value -/
  res : Res
deriving DecidableEq, Repr

/-- `dead`: translation of the Go function. Runs `dying`, then
`app.Delete()`, then `waitForTerminated`, then
`facade.ClearApplicationResources`, then one `updateState` flush, aborting
at the first error. -/
def dead (dyingRes deleteRes : Res) (states : Nat → ROr (Bool × Bool))
    (clearRes flushRes : Res) : DeadOut :=
  match dyingRes with
  | some e => ⟨[DAct.dyingA], some e⟩
  | none =>
    match deleteRes with
    | some e => ⟨[DAct.dyingA, DAct.deleteA], some e⟩
    | none =>
      match waitRes (waitForTerminated states) with
      | some e => ⟨[DAct.dyingA, DAct.deleteA, DAct.waitA], some e⟩
      | none =>
        match clearRes with
        | some e => ⟨[DAct.dyingA, DAct.deleteA, DAct.waitA, DAct.clearA], some e⟩
        | none =>
          match flushRes with
          | some e =>
            ⟨[DAct.dyingA, DAct.deleteA, DAct.waitA, DAct.clearA, DAct.flushA], some e⟩
          | none =>
            ⟨[DAct.dyingA, DAct.deleteA, DAct.waitA, DAct.clearA, DAct.flushA], none⟩

/-- What a `select` branch of the event loop does with its timer after a
decision returns: re-arm it after `delay` seconds, set it to nil, or
terminate the worker by returning the error. -/
inductive Outcome where
  | rearm (delay : Nat)
  | cleared
  | terminate
deriving DecidableEq, Repr

/-- The `scaleChan` branch of the loop: error handling after
`a.ensureScale(app)` returns, given the current `scaleTries` counter.
Returns the timer outcome and the new counter. -/
def scaleDispatch (tries : Nat) (e : Res) : Outcome × Nat :=
  match e with
  | some EKind.notFound =>
    if tries ≥ maxRetries then (.terminate, tries)
    else (.rearm retryDelaySec, tries + 1)
  | some EKind.tryAgain => (.rearm retryDelaySec, tries)
  | some EKind.fatal => (.terminate, tries)
  | none => (.cleared, tries)

/-- The `reconcileDeadChan` branch of the loop: error handling after
`a.reconcileDeadUnitScale(app)` returns. -/
def reconcileDispatch (e : Res) : Outcome :=
  match e with
  | some EKind.notFound => .rearm retryDelaySec
  | some EKind.tryAgain => .rearm retryDelaySec
  | some EKind.fatal => .terminate
  | none => .cleared

/-- The `trustChan` branch of the loop: error handling after
`a.ensureTrust(app)` returns, given the current `trustTries` counter. Only
`NotFound` re-arms; every other error returns from the loop. -/
def trustDispatch (tries : Nat) (e : Res) : Outcome × Nat :=
  match e with
  | some EKind.notFound =>
    if tries ≥ maxRetries then (.terminate, tries)
    else (.rearm retryDelaySec, tries + 1)
  | some _ => (.terminate, tries)
  | none => (.cleared, tries)

/-- The `stateAppChangedChan` branch of the loop: error handling after
`handleChange()` returns. -/
def handleChangeDispatch (e : Res) : Outcome :=
  match e with
  | some EKind.tryAgain => .rearm retryDelaySec
  | some _ => .terminate
  | none => .cleared

/-- State of one retry counter of the loop (`scaleTries` with `scaleChan`,
or `trustTries` with `trustChan`): the counter, whether the timer channel
is non-nil, and whether the loop has returned. -/
structure LoopCtr where
  tries : Nat
  armed : Bool
  dead : Bool
deriving DecidableEq, Repr

/-- Initial counter state on loop entry: counter 0, timer nil. -/
def ctrInit : LoopCtr := ⟨0, false, false⟩

/-- Events touching one counter: the watcher branch firing, or the timer
branch firing with the decision's result. -/
inductive CtrEv where
  | watch
  | fire (e : Res)
deriving DecidableEq, Repr

/-- One loop iteration as it affects a counter, parameterised by the
dispatch of its timer branch. The watcher branch resets the counter to 0
only when arming an idle (nil) timer; the timer branch can only fire while
armed. -/
def ctrStep (dispatch : Nat → Res → Outcome × Nat) (s : LoopCtr) (ev : CtrEv) : LoopCtr :=
  if s.dead then s
  else
    match ev with
    | .watch => if s.armed then s else ⟨0, true, false⟩
    | .fire e =>
      if s.armed = false then s
      else
        match dispatch s.tries e with
        | (.rearm _, t) => ⟨t, true, false⟩
        | (.cleared, t) => ⟨t, false, false⟩
        | (.terminate, t) => ⟨t, s.armed, true⟩

/-- Errors the `BlockingOpQueue` returns to a submitter. -/
inductive QErr where
  | deadlineExceeded
  | queueClosed
deriving DecidableEq, Repr

/-- Outcome of one `Enqueue` call: the error returned to the submitter
(`none` = the consumer's nil verdict), and whether the operation was
delivered on the consumer's outbound stream. -/
structure EnqueueOutcome where
  err : Option QErr
  delivered : Bool
deriving DecidableEq, Repr

/-- Modelled from the spec: the `BlockingOpQueue.Enqueue` implementation of
the `queue` package is not under src (only its test file is). Per §4.1,
Enqueue races the rendezvous offer against a timer derived from
`deadline − now`: at each instant `t` from 0 up to the deadline the offer
succeeds if the consumer is ready at `t`; when the timer fires first the
operation is withdrawn and `DeadlineExceeded` is returned, so the consumer
never observes it. `fuel` is the remaining time until the deadline. -/
def raceLoop (ready : Nat → Bool) : Nat → Nat → EnqueueOutcome
  | 0, t => if ready t then ⟨none, true⟩ else ⟨some QErr.deadlineExceeded, false⟩
  | fuel + 1, t => if ready t then ⟨none, true⟩ else raceLoop ready fuel (t + 1)

/-- Modelled from the spec: `Enqueue` with `timeUntilDeadline`
(`deadline − now`, possibly zero or negative) and a consumer whose
readiness at instant `t` is `ready t`. A non-positive time-until-deadline
still attempts one non-blocking offer at instant 0. -/
def enqueueModel (timeUntilDeadline : Int) (ready : Nat → Bool) : EnqueueOutcome :=
  raceLoop ready timeUntilDeadline.toNat 0

/-- The `unitsToRemove` value `reconcileDeadUnitScale` computes:
`currentUnits − scaleTarget`, replaced by the dead-unit count when that
difference is non-positive. -/
def unitsToRemoveOf (current target deadCount : Nat) : Int :=
  if (current : Int) - (target : Int) ≤ 0 then (deadCount : Int)
  else (current : Int) - (target : Int)

/-- A sample environment for `reconcileDeadUnitScale`: a single alive unit,
every external call succeeding. -/
def rdEnvIdle : RDEnv :=
  { unitsRes := .ok [⟨"u0", .ok Life.alive⟩], scaleRes := none, stateRes := .ok [],
    removeRes := fun _ => none, setPsRes := none }

/-- Units observed in the C1 counterexample: three units, the last two Dead. -/
def unitsThreeTwoDead : List CUnit :=
  [⟨"u0", .ok Life.alive⟩, ⟨"u1", .ok Life.dead⟩, ⟨"u2", .ok Life.dead⟩]

/-- Environment for the C1 counterexample. -/
def rdEnvThreeTwoDead : RDEnv :=
  { unitsRes := .ok unitsThreeTwoDead, scaleRes := none, stateRes := .ok [],
    removeRes := fun _ => none, setPsRes := none }

/-- Claim C1's gate as stated: the number of units to remove is
`max(currentUnits − scaleTarget, |deadUnits|)` and substrate `Scale` is
invoked exactly when the dead-unit count equals that number. -/
def claimC1At (ps : PS) (env : RDEnv) : Prop :=
  ∀ units deadUnits, env.unitsRes = .ok units → collectDead units = .ok deadUnits →
    ps.scaling = true →
    ((reconcileDeadUnitScale ps env).scaleCalled = true ↔
      (deadUnits.length : Int) =
        max ((units.length : Int) - (ps.scaleTarget : Int)) (deadUnits.length : Int))

/-- The `RemoveUnit` loop removes every listed unit and succeeds when each
per-unit result is nil or NotFound. -/
theorem removeDead_suppress (f : String → Res)
    (hf : ∀ t, f t = none ∨ f t = some EKind.notFound) :
    ∀ ts : List String, removeDead f ts = (ts, none) := by
  intro ts
  induction ts with
  | nil => rfl
  | cons t ts ih =>
    rcases hf t with h | h <;> simp [removeDead, h, ih]

/-- C9: with provisioning.scaling = false, `reconcileDeadUnitScale` returns
nil immediately after reading units: no substrate Scale, no RemoveUnit, and
no change to the provisioning state. -/
theorem reconcileDead_not_scaling_frame (ps : PS) (env : RDEnv) (units : List CUnit)
    (hu : env.unitsRes = .ok units) (hs : ps.scaling = false) :
    reconcileDeadUnitScale ps env =
      { res := none, scaleCalled := false, removed := [], psSet := none, ps := ps } := by
  simp [reconcileDeadUnitScale, hu, hs]

/-- Witness for C9 at a concrete idle state. -/
theorem reconcileDead_not_scaling_frame_witness :
    rdEnvIdle.unitsRes = .ok [⟨"u0", .ok Life.alive⟩] ∧
    (⟨false, 3⟩ : PS).scaling = false ∧
    reconcileDeadUnitScale ⟨false, 3⟩ rdEnvIdle =
      { res := none, scaleCalled := false, removed := [], psSet := none, ps := ⟨false, 3⟩ } :=
  ⟨rfl, rfl, reconcileDead_not_scaling_frame ⟨false, 3⟩ rdEnvIdle [⟨"u0", .ok Life.alive⟩] rfl rfl⟩

/-- C1 counterexample: with three units of which two are Dead and a scale
target of 2, the claim's `max` formula gives 2 = |deadUnits| and so demands
a substrate `Scale` call, but the code computes `unitsToRemove = 1`, does
not proceed, and never calls `Scale`. -/
theorem reconcileDead_max_counterexample : ¬ claimC1At ⟨true, 2⟩ rdEnvThreeTwoDead := by
  intro h
  have h2 := h unitsThreeTwoDead [⟨"u1", .ok Life.dead⟩, ⟨"u2", .ok Life.dead⟩]
    rfl (by decide) rfl
  revert h2
  decide

/-- When scaling and the computed units-to-remove differ from the dead-unit
count, `reconcileDeadUnitScale` stops before any substrate or facade
mutation. -/
theorem reconcileDead_gate_closed (ps : PS) (env : RDEnv) (units deadUnits : List CUnit)
    (hu : env.unitsRes = .ok units) (hd : collectDead units = .ok deadUnits)
    (hscaling : ps.scaling = true)
    (hg : unitsToRemoveOf units.length ps.scaleTarget deadUnits.length ≠
      (deadUnits.length : Int)) :
    reconcileDeadUnitScale ps env =
      { res := none, scaleCalled := false, removed := [], psSet := none, ps := ps } := by
  unfold reconcileDeadUnitScale
  rw [hu]
  simp only [unitsToRemoveOf] at hg
  by_cases h0 : (units.length : Int) - (ps.scaleTarget : Int) ≤ 0
  · rw [if_pos h0] at hg
    exact absurd rfl hg
  · rw [if_neg h0] at hg
    simp [hscaling, hd, h0, hg]

/-- When scaling, the gate holds and `app.Scale` succeeds, the function
continues past the `Scale` call. -/
theorem reconcileDead_gate_open (ps : PS) (env : RDEnv) (units deadUnits : List CUnit)
    (hu : env.unitsRes = .ok units) (hd : collectDead units = .ok deadUnits)
    (hscaling : ps.scaling = true) (hscale : env.scaleRes = none)
    (hg : unitsToRemoveOf units.length ps.scaleTarget deadUnits.length =
      (deadUnits.length : Int)) :
    reconcileDeadUnitScale ps env = reconcileAfterScale ps env ps.scaleTarget deadUnits := by
  unfold reconcileDeadUnitScale
  rw [hu]
  simp only [unitsToRemoveOf] at hg
  by_cases h0 : (units.length : Int) - (ps.scaleTarget : Int) ≤ 0
  · simp [hscaling, hd, h0, hscale]
  · rw [if_neg h0] at hg
    simp [hscaling, hd, h0, hg, hscale]

/-- Past the gate, the substrate `Scale` call has been made whatever the
rest of the continuation does. -/
theorem reconcileAfterScale_scaleCalled_ok (ps : PS) (env : RDEnv) (d : Nat)
    (deadUnits : List CUnit) (replicas : List String)
    (hstate : env.stateRes = .ok replicas) :
    (reconcileAfterScale ps env d deadUnits).scaleCalled = true := by
  unfold reconcileAfterScale
  simp only [hstate]
  by_cases hr : replicas.length > d
  · simp [hr]
  · simp only [if_neg hr]
    rcases hrem : (removeDead env.removeRes (deadUnits.map CUnit.tag)).2 with _ | e2
    · simp [hrem]
    · simp [hrem]

/-- While the substrate still reports more replicas than the target, the
continuation yields the `tryAgain` sentinel without removing units or
touching the provisioning state. -/
theorem reconcileAfterScale_tryAgain (ps : PS) (env : RDEnv) (d : Nat)
    (deadUnits : List CUnit) (replicas : List String)
    (hstate : env.stateRes = .ok replicas) (hr : replicas.length > d) :
    reconcileAfterScale ps env d deadUnits =
      { res := some EKind.tryAgain, scaleCalled := true, removed := [], psSet := none,
        ps := ps } := by
  simp [reconcileAfterScale, hstate, hr]

/-- Once the substrate has contracted, the continuation removes every dead
unit and clears the provisioning state. -/
theorem reconcileAfterScale_success (ps : PS) (env : RDEnv) (d : Nat)
    (deadUnits : List CUnit) (replicas : List String)
    (hstate : env.stateRes = .ok replicas) (hr : ¬ replicas.length > d)
    (hrm : ∀ t, env.removeRes t = none ∨ env.removeRes t = some EKind.notFound)
    (hset : env.setPsRes = none) :
    reconcileAfterScale ps env d deadUnits =
      { res := none, scaleCalled := true, removed := deadUnits.map CUnit.tag,
        psSet := some ⟨false, 0⟩, ps := ⟨false, 0⟩ } := by
  have hrd := removeDead_suppress env.removeRes hrm (deadUnits.map CUnit.tag)
  simp [reconcileAfterScale, hstate, hr, hrd, hset, updateProvisioningState]

/-- C1 amended: with scaling = true, the number of units to remove is
`currentUnits − scaleTarget` when positive and `|deadUnits|` otherwise;
`Scale(scaleTarget)` is invoked exactly when `|deadUnits|` equals that
number; when the substrate afterwards still reports more replicas than
`scaleTarget` the result is TryAgain; otherwise every dead unit is removed
via the facade and the scaling flag is cleared. -/
theorem reconcileDead_amended (ps : PS) (env : RDEnv)
    (units deadUnits : List CUnit) (replicas : List String)
    (hu : env.unitsRes = .ok units) (hd : collectDead units = .ok deadUnits)
    (hscaling : ps.scaling = true) (hscale : env.scaleRes = none)
    (hstate : env.stateRes = .ok replicas) :
    ((reconcileDeadUnitScale ps env).scaleCalled = true ↔
      unitsToRemoveOf units.length ps.scaleTarget deadUnits.length =
        (deadUnits.length : Int)) ∧
    (unitsToRemoveOf units.length ps.scaleTarget deadUnits.length = (deadUnits.length : Int) →
      replicas.length > ps.scaleTarget →
      (reconcileDeadUnitScale ps env).res = some EKind.tryAgain ∧
      (reconcileDeadUnitScale ps env).removed = [] ∧
      (reconcileDeadUnitScale ps env).psSet = none ∧
      (reconcileDeadUnitScale ps env).ps = ps) ∧
    (unitsToRemoveOf units.length ps.scaleTarget deadUnits.length = (deadUnits.length : Int) →
      replicas.length ≤ ps.scaleTarget →
      (∀ t, env.removeRes t = none) → env.setPsRes = none →
      (reconcileDeadUnitScale ps env).res = none ∧
      (reconcileDeadUnitScale ps env).removed = deadUnits.map CUnit.tag ∧
      (reconcileDeadUnitScale ps env).psSet = some ⟨false, 0⟩ ∧
      (reconcileDeadUnitScale ps env).ps = ⟨false, 0⟩) ∧
    (unitsToRemoveOf units.length ps.scaleTarget deadUnits.length ≠ (deadUnits.length : Int) →
      reconcileDeadUnitScale ps env =
        { res := none, scaleCalled := false, removed := [], psSet := none, ps := ps }) := by
  by_cases hg : unitsToRemoveOf units.length ps.scaleTarget deadUnits.length =
      (deadUnits.length : Int)
  · have hopen := reconcileDead_gate_open ps env units deadUnits hu hd hscaling hscale hg
    refine ⟨?_, fun _ hr => ?_, fun _ hle hrm hset => ?_, fun hn => absurd hg hn⟩
    · rw [hopen]
      simp [reconcileAfterScale_scaleCalled_ok ps env ps.scaleTarget deadUnits replicas hstate,
        hg]
    · rw [hopen,
        reconcileAfterScale_tryAgain ps env ps.scaleTarget deadUnits replicas hstate hr]
      exact ⟨rfl, rfl, rfl, rfl⟩
    · rw [hopen,
        reconcileAfterScale_success ps env ps.scaleTarget deadUnits replicas hstate
          (by omega) (fun t => Or.inl (hrm t)) hset]
      exact ⟨rfl, rfl, rfl, rfl⟩
  · have hclosed := reconcileDead_gate_closed ps env units deadUnits hu hd hscaling hg
    refine ⟨?_, fun hgg => absurd hgg hg, fun hgg => absurd hgg hg, fun _ => hclosed⟩
    rw [hclosed]
    simp [hg]

/-- Witness for C1's amended theorem: one unit, Dead, scale target 0; the
substrate reports no replicas, the dead unit is removed and the scaling
flag cleared. -/
theorem reconcileDead_amended_witness :
    (reconcileDeadUnitScale ⟨true, 0⟩
        { unitsRes := .ok [⟨"u0", .ok Life.dead⟩], scaleRes := none, stateRes := .ok [],
          removeRes := fun _ => none, setPsRes := none }).res = none ∧
    (reconcileDeadUnitScale ⟨true, 0⟩
        { unitsRes := .ok [⟨"u0", .ok Life.dead⟩], scaleRes := none, stateRes := .ok [],
          removeRes := fun _ => none, setPsRes := none }).removed = ["u0"] ∧
    (reconcileDeadUnitScale ⟨true, 0⟩
        { unitsRes := .ok [⟨"u0", .ok Life.dead⟩], scaleRes := none, stateRes := .ok [],
          removeRes := fun _ => none, setPsRes := none }).psSet = some ⟨false, 0⟩ ∧
    (reconcileDeadUnitScale ⟨true, 0⟩
        { unitsRes := .ok [⟨"u0", .ok Life.dead⟩], scaleRes := none, stateRes := .ok [],
          removeRes := fun _ => none, setPsRes := none }).ps = ⟨false, 0⟩ :=
  (reconcileDead_amended ⟨true, 0⟩
      { unitsRes := .ok [⟨"u0", .ok Life.dead⟩], scaleRes := none, stateRes := .ok [],
        removeRes := fun _ => none, setPsRes := none }
      [⟨"u0", .ok Life.dead⟩] [⟨"u0", .ok Life.dead⟩] []
      rfl (by decide) rfl rfl rfl).2.2.1 (by decide) (by decide)
    (fun _ => rfl) rfl

/-- C10: a NotFound error from substrate `Scale` or from facade
`RemoveUnit` inside `reconcileDeadUnitScale` is suppressed and treated as
success: processing continues and the scaling flag is still cleared at the
end. -/
theorem reconcileDead_notFound_suppressed (ps : PS) (env : RDEnv)
    (units deadUnits : List CUnit) (replicas : List String)
    (hu : env.unitsRes = .ok units) (hd : collectDead units = .ok deadUnits)
    (hscaling : ps.scaling = true)
    (hscale : env.scaleRes = some EKind.notFound)
    (hg : unitsToRemoveOf units.length ps.scaleTarget deadUnits.length =
      (deadUnits.length : Int))
    (hstate : env.stateRes = .ok replicas) (hr : replicas.length ≤ ps.scaleTarget)
    (hrm : ∀ t, env.removeRes t = none ∨ env.removeRes t = some EKind.notFound)
    (hset : env.setPsRes = none) :
    reconcileDeadUnitScale ps env =
      { res := none, scaleCalled := true, removed := deadUnits.map CUnit.tag,
        psSet := some ⟨false, 0⟩, ps := ⟨false, 0⟩ } := by
  have hopen : reconcileDeadUnitScale ps env =
      reconcileAfterScale ps env ps.scaleTarget deadUnits := by
    unfold reconcileDeadUnitScale
    rw [hu]
    simp only [unitsToRemoveOf] at hg
    by_cases h0 : (units.length : Int) - (ps.scaleTarget : Int) ≤ 0
    · simp [hscaling, hd, h0, hscale]
    · rw [if_neg h0] at hg
      simp [hscaling, hd, h0, hg, hscale]
  rw [hopen,
    reconcileAfterScale_success ps env ps.scaleTarget deadUnits replicas hstate
      (by omega) hrm hset]

/-- Witness for C10: one Dead unit, target 0, substrate `Scale` and facade
`RemoveUnit` both answering NotFound; the flag is still cleared. -/
theorem reconcileDead_notFound_suppressed_witness :
    reconcileDeadUnitScale ⟨true, 0⟩
        { unitsRes := .ok [⟨"u0", .ok Life.dead⟩], scaleRes := some EKind.notFound,
          stateRes := .ok [], removeRes := fun _ => some EKind.notFound, setPsRes := none } =
      { res := none, scaleCalled := true, removed := ["u0"],
        psSet := some ⟨false, 0⟩, ps := ⟨false, 0⟩ } :=
  reconcileDead_notFound_suppressed ⟨true, 0⟩
    { unitsRes := .ok [⟨"u0", .ok Life.dead⟩], scaleRes := some EKind.notFound,
      stateRes := .ok [], removeRes := fun _ => some EKind.notFound, setPsRes := none }
    [⟨"u0", .ok Life.dead⟩] [⟨"u0", .ok Life.dead⟩] []
    rfl (by decide) rfl rfl (by decide) rfl (by decide) (fun _ => Or.inr rfl) rfl

/-- Claim C2 as stated: in each of the four decision branches of the event
loop, a TryAgain result re-arms that branch's timer at the fixed retry
delay. -/
def claimC2 : Prop :=
  (∀ t, (scaleDispatch t (some EKind.tryAgain)).1 = Outcome.rearm retryDelaySec) ∧
  reconcileDispatch (some EKind.tryAgain) = Outcome.rearm retryDelaySec ∧
  (∀ t, (trustDispatch t (some EKind.tryAgain)).1 = Outcome.rearm retryDelaySec) ∧
  handleChangeDispatch (some EKind.tryAgain) = Outcome.rearm retryDelaySec

/-- C2 counterexample: the `trustChan` branch has no TryAgain case, so a
TryAgain error from `ensureTrust` terminates the worker instead of
re-arming the trust timer. -/
theorem loop_tryAgain_counterexample : ¬ claimC2 := by
  intro h
  have h2 := h.2.2.1 0
  simp [trustDispatch] at h2

/-- C2 amended: a TryAgain from ensureScale, reconcileDeadUnitScale or
handleChange re-arms the calling timer at the fixed 3-second delay, but in
the trust branch a TryAgain error from ensureTrust terminates the worker
(only NotFound re-arms there). -/
theorem loop_tryAgain_amended (t : Nat) :
    retryDelaySec = 3 ∧
    scaleDispatch t (some EKind.tryAgain) = (Outcome.rearm retryDelaySec, t) ∧
    reconcileDispatch (some EKind.tryAgain) = Outcome.rearm retryDelaySec ∧
    handleChangeDispatch (some EKind.tryAgain) = Outcome.rearm retryDelaySec ∧
    trustDispatch t (some EKind.tryAgain) = (Outcome.terminate, t) :=
  ⟨rfl, rfl, rfl, rfl, rfl⟩

/-- The scale branch never drives its counter above `maxRetries`. -/
theorem scaleDispatch_tries_le (t : Nat) (e : Res) (h : t ≤ maxRetries) :
    (scaleDispatch t e).2 ≤ maxRetries := by
  rcases e with _ | ek
  · exact h
  · cases ek
    · unfold scaleDispatch
      split_ifs <;> simp <;> omega
    · exact h
    · exact h

/-- The trust branch never drives its counter above `maxRetries`. -/
theorem trustDispatch_tries_le (t : Nat) (e : Res) (h : t ≤ maxRetries) :
    (trustDispatch t e).2 ≤ maxRetries := by
  rcases e with _ | ek
  · exact h
  · cases ek
    · unfold trustDispatch
      split_ifs <;> simp <;> omega
    · exact h
    · exact h

/-- One loop iteration keeps a counter within `maxRetries` whenever its
dispatch does. -/
theorem ctrStep_tries_le (d : Nat → Res → Outcome × Nat)
    (hd : ∀ t e, t ≤ maxRetries → (d t e).2 ≤ maxRetries)
    (s : LoopCtr) (ev : CtrEv) (h : s.tries ≤ maxRetries) :
    (ctrStep d s ev).tries ≤ maxRetries := by
  unfold ctrStep
  by_cases hdead : s.dead = true
  · simp [hdead, h]
  · simp only [hdead, Bool.false_eq_true, if_false]
    cases ev with
    | watch =>
      by_cases ha : s.armed = true
      · simp [ha, h]
      · simp [ha]
    | fire e =>
      by_cases ha : s.armed = false
      · simp [ha, h]
      · simp only [ha, if_false]
        have hde := hd s.tries e h
        rcases hmatch : d s.tries e with ⟨o, t2⟩
        rw [hmatch] at hde
        cases o <;> simp [hmatch] <;> exact hde

/-- Folding loop iterations preserves the counter bound. -/
theorem ctrFold_tries_le (d : Nat → Res → Outcome × Nat)
    (hd : ∀ t e, t ≤ maxRetries → (d t e).2 ≤ maxRetries) (evs : List CtrEv) :
    ∀ s : LoopCtr, s.tries ≤ maxRetries →
      ((evs.foldl (ctrStep d) s).tries ≤ maxRetries) := by
  induction evs with
  | nil => intro s h; exact h
  | cons ev evs ih => intro s h; exact ih _ (ctrStep_tries_le d hd s ev h)

/-- C7: a NotFound from ensureScale or ensureTrust increments the
corresponding attempt counter and re-arms its timer at 3 seconds; the
counters never exceed 20 before the worker terminates with an error
(exceeding 20 is terminal); an idle timer re-armed by its watcher resets
the counter to 0. -/
theorem loop_attempt_counters (evs : List CtrEv) (t : Nat) (s : LoopCtr)
    (ht : t < maxRetries) (hidle : s.armed = false) (hlive : s.dead = false) :
    maxRetries = 20 ∧ retryDelaySec = 3 ∧
    (evs.foldl (ctrStep scaleDispatch) ctrInit).tries ≤ maxRetries ∧
    (evs.foldl (ctrStep trustDispatch) ctrInit).tries ≤ maxRetries ∧
    scaleDispatch t (some EKind.notFound) = (Outcome.rearm retryDelaySec, t + 1) ∧
    trustDispatch t (some EKind.notFound) = (Outcome.rearm retryDelaySec, t + 1) ∧
    (∀ t2, maxRetries ≤ t2 →
      scaleDispatch t2 (some EKind.notFound) = (Outcome.terminate, t2) ∧
      trustDispatch t2 (some EKind.notFound) = (Outcome.terminate, t2)) ∧
    ctrStep scaleDispatch s CtrEv.watch = ⟨0, true, false⟩ ∧
    ctrStep trustDispatch s CtrEv.watch = ⟨0, true, false⟩ := by
  refine ⟨rfl, rfl,
    ctrFold_tries_le scaleDispatch scaleDispatch_tries_le evs ctrInit (Nat.zero_le _),
    ctrFold_tries_le trustDispatch trustDispatch_tries_le evs ctrInit (Nat.zero_le _),
    ?_, ?_, fun t2 h2 => ⟨?_, ?_⟩, ?_, ?_⟩
  · simp [scaleDispatch, Nat.not_le.mpr ht]
  · simp [trustDispatch, Nat.not_le.mpr ht]
  · simp [scaleDispatch, h2]
  · simp [trustDispatch, h2]
  · simp [ctrStep, hidle, hlive]
  · simp [ctrStep, hidle, hlive]

/-- Witness for C7: a watcher arming an idle timer followed by a NotFound
decision, from the initial state. -/
theorem loop_attempt_counters_witness :
    (0 < maxRetries ∧ ctrInit.armed = false ∧ ctrInit.dead = false) ∧
    ([CtrEv.watch, CtrEv.fire (some EKind.notFound)].foldl
        (ctrStep scaleDispatch) ctrInit).tries ≤ maxRetries ∧
    scaleDispatch 0 (some EKind.notFound) = (Outcome.rearm retryDelaySec, 1) ∧
    ctrStep scaleDispatch ctrInit CtrEv.watch = ⟨0, true, false⟩ :=
  have h := loop_attempt_counters [CtrEv.watch, CtrEv.fire (some EKind.notFound)] 0 ctrInit
    (by decide) rfl rfl
  ⟨⟨by decide, rfl, rfl⟩, h.2.2.1, h.2.2.2.2.1, h.2.2.2.2.2.2.2.1⟩

/-- Environment for the C5 counterexample: the unit facade reports desired
scale 3, there are four existing units, every call succeeds. -/
def esEnvStale : ESEnv :=
  { appScaleRes := .ok 3, setPsRes1 := none, unitsRes := .ok ["u0", "u1", "u2", "u3"],
    scaleRes := none, setPsRes2 := none, unitsToRemoveRes := .ok [], destroyRes := none }

/-- Claim C5's transition clause as stated: the provisioning state
transitions to `{scaling: true, scaleTarget: desired}` exactly when the
worker is not already scaling toward this target, or life ≠ Alive. -/
def claimC5At (lf : Life) (ps : PS) (env : ESEnv) : Prop :=
  ∀ desired, desiredScaleOf lf env = .ok desired →
    ((¬(ps.scaling = true ∧ ps.scaleTarget = desired) ∨ lf ≠ Life.alive) ↔
      (⟨true, desired⟩ : PS) ∈ (ensureScale lf ps env).psSetCalls)

/-- C5 counterexample: an Alive worker already scaling toward the stale
target 5 while the facade now wants 3 is not "scaling toward this target",
yet the code's guard is only `!scaling || life ≠ Alive`, so no transition
to `{scaling: true, scaleTarget: 3}` is performed. -/
theorem ensureScale_transition_counterexample :
    ¬ claimC5At Life.alive ⟨true, 5⟩ esEnvStale := by
  intro h
  have h2 := h 3 rfl
  revert h2
  decide

/-- C5 amended: desired scale comes from the UnitFacade when Alive and is 0
when Dying or Dead; when not already scaling — toward any target — or when
life ≠ Alive, the state transitions to `{scaling: true, scaleTarget:
desired}`; when the effective target is at least the current unit count the
substrate is scaled and the flag cleared; otherwise the substrate's
units-to-remove are destroyed via the facade and TryAgain is yielded
exactly when the pending target differs from the observed desired scale. -/
theorem ensureScale_amended (lf : Life) (ps : PS) (env : ESEnv)
    (desired : Nat) (units toRemove : List String)
    (hdes : desiredScaleOf lf env = .ok desired)
    (hset1 : env.setPsRes1 = none) (hunits : env.unitsRes = .ok units)
    (hscale : env.scaleRes = none) (hset2 : env.setPsRes2 = none)
    (hutr : env.unitsToRemoveRes = .ok toRemove) (hdestroy : env.destroyRes = none) :
    (desiredScaleOf Life.alive env = env.appScaleRes ∧
      desiredScaleOf Life.dying env = .ok 0 ∧ desiredScaleOf Life.dead env = .ok 0) ∧
    ((ps.scaling = false ∨ lf ≠ Life.alive) → desired ≥ units.length →
      ensureScale lf ps env =
        { res := none, psSetCalls := [⟨true, desired⟩, ⟨false, 0⟩],
          scaleCalled := some desired, destroyed := none, ps := ⟨false, 0⟩ }) ∧
    ((ps.scaling = false ∨ lf ≠ Life.alive) → desired < units.length →
      ensureScale lf ps env =
        { res := none, psSetCalls := [⟨true, desired⟩], scaleCalled := none,
          destroyed := if toRemove.length > 0 then some toRemove else none,
          ps := ⟨true, desired⟩ }) ∧
    (ps.scaling = true → lf = Life.alive → ps.scaleTarget ≥ units.length →
      ensureScale lf ps env =
        { res := none, psSetCalls := [⟨false, 0⟩], scaleCalled := some ps.scaleTarget,
          destroyed := none, ps := ⟨false, 0⟩ }) ∧
    (ps.scaling = true → lf = Life.alive → ps.scaleTarget < units.length →
      ensureScale lf ps env =
        { res := if ps.scaleTarget ≠ desired then some EKind.tryAgain else none,
          psSetCalls := [], scaleCalled := none,
          destroyed := if toRemove.length > 0 then some toRemove else none,
          ps := ps }) := by
  refine ⟨⟨rfl, rfl, rfl⟩, ?_, ?_, ?_, ?_⟩
  · intro h hge
    unfold ensureScale
    rw [hdes]
    rcases h with h | h <;>
      simp [h, hset1, hunits, hscale, hset2, updateProvisioningState, hge]
  · intro h hlt
    have hng : ¬ desired ≥ units.length := by omega
    unfold ensureScale
    rw [hdes]
    rcases h with h | h <;>
      simp [h, hset1, hunits, hscale, hset2, hutr, hdestroy,
        updateProvisioningState, hng]
  · intro h1 h2 hge
    unfold ensureScale
    rw [hdes]
    simp [h1, h2, hset1, hunits, hscale, hset2, updateProvisioningState, hge]
  · intro h1 h2 hlt
    have hng : ¬ ps.scaleTarget ≥ units.length := by omega
    unfold ensureScale
    rw [hdes]
    simp [h1, h2, hset1, hunits, hscale, hset2, hutr, hdestroy,
      updateProvisioningState, hng]
    split_ifs <;> rfl

/-- Witness for C5's amended theorem: an Alive application not yet scaling,
desired scale 3, one existing unit; the substrate is scaled to 3 and the
flag cleared. -/
theorem ensureScale_amended_witness :
    ((⟨false, 0⟩ : PS).scaling = false ∨ Life.alive ≠ Life.alive) ∧
    (3 : Nat) ≥ (["u0"] : List String).length ∧
    ensureScale Life.alive ⟨false, 0⟩
        { appScaleRes := .ok 3, setPsRes1 := none, unitsRes := .ok ["u0"],
          scaleRes := none, setPsRes2 := none, unitsToRemoveRes := .ok [],
          destroyRes := none } =
      { res := none, psSetCalls := [⟨true, 3⟩, ⟨false, 0⟩], scaleCalled := some 3,
        destroyed := none, ps := ⟨false, 0⟩ } :=
  ⟨Or.inl rfl, by decide,
    (ensureScale_amended Life.alive ⟨false, 0⟩
        { appScaleRes := .ok 3, setPsRes1 := none, unitsRes := .ok ["u0"],
          scaleRes := none, setPsRes2 := none, unitsToRemoveRes := .ok [],
          destroyRes := none }
        3 ["u0"] [] rfl rfl rfl rfl rfl rfl rfl).2.1 (Or.inl rfl) (by decide)⟩

/-- A sample application configuration. -/
def cfgA : AppConfig :=
  { isPrivateImageRepo := false, introductionSecret := "s1", agentVersion := "2.9.37",
    agentImagePath := "jujud-operator", controllerAddresses := "10.0.0.1:17070",
    controllerCertBundle := "cert", resourceTags := [("juju-model-uuid", "m1")],
    constraints := "", filesystems := [], devices := [], charmBaseImagePath := "ubuntu:20.04",
    containers := [("workload", ⟨"workload", "img:1", [⟨"data", "/var/data"⟩]⟩)],
    charmModifiedVersion := 1, trust := false, initialScale := 1 }

/-- The sample configuration with the trust flag flipped. -/
def cfgB : AppConfig :=
  { cfgA with trust := true }

/-- C4: in the alive decision, substrate `Ensure` is called iff the freshly
constructed config is structurally unequal to `lastApplied`; on success
`lastApplied := config`; on failure the application status is set to Error
with the error message and `lastApplied` is unchanged; with equal configs
no substrate mutation is performed. -/
theorem alive_ensure_iff (lastApplied config : AppConfig) (appExists : Bool)
    (ensureRes : Option String) :
    ((aliveTail lastApplied config appExists ensureRes).ensureCalled = true ↔
      config ≠ lastApplied) ∧
    (config ≠ lastApplied → ensureRes = none →
      (aliveTail lastApplied config appExists ensureRes).lastApplied = config ∧
      (aliveTail lastApplied config appExists ensureRes).statusSet = none ∧
      (aliveTail lastApplied config appExists ensureRes).res = none) ∧
    (∀ msg, config ≠ lastApplied → ensureRes = some msg →
      (aliveTail lastApplied config appExists ensureRes).statusSet =
        some (StVal.error, msg) ∧
      (aliveTail lastApplied config appExists ensureRes).lastApplied = lastApplied ∧
      (aliveTail lastApplied config appExists ensureRes).res = some msg) ∧
    (config = lastApplied →
      aliveTail lastApplied config appExists ensureRes =
        { ensureCalled := false, lastApplied := lastApplied, statusSet := none,
          reason := "unchanged", res := none }) := by
  by_cases hc : config = lastApplied
  · simp [aliveTail, hc]
  · rcases ensureRes with _ | msg
    · simp [aliveTail, hc]
    · simp [aliveTail, hc]

/-- Witness for C4 on concrete configs differing in the trust flag. -/
theorem alive_ensure_iff_witness :
    cfgB ≠ cfgA ∧
    (aliveTail cfgA cfgB false none).lastApplied = cfgB ∧
    (aliveTail cfgA cfgB false none).statusSet = none ∧
    (aliveTail cfgA cfgB false none).res = none :=
  ⟨by decide, (alive_ensure_iff cfgA cfgB false none).2.1 (by decide) rfl⟩

/-- C8: when life is Alive and the reads succeed, the worker counts units
whose agent status is active and sets the application status to Waiting
("waiting for units to settle down") when desiredReplicas exceeds that
count, and to Active otherwise; when life is not Alive no status update is
performed. -/
theorem refreshStatus_spec (appLife : Life) (d : Int) (sts : List String) (setRes : Res)
    (stRes : ROr Int) (uRes : ROr (List String)) :
    (appLife = Life.alive →
      refreshApplicationStatus appLife (.ok d) (.ok sts) setRes =
        (some (if ((sts.filter (fun s => s = "active")).length : Int) < d then
            (StVal.waiting, "waiting for units to settle down")
          else (StVal.active, "")), setRes)) ∧
    (appLife ≠ Life.alive →
      refreshApplicationStatus appLife stRes uRes setRes = (none, none)) := by
  constructor
  · intro ha
    subst ha
    have hc : (0 : Int) ≤ ((sts.filter (fun s => s = "active")).length : Int) :=
      Int.natCast_nonneg _
    have hiff : (d > 0 ∧ d > ((sts.filter (fun s => s = "active")).length : Int)) ↔
        ((sts.filter (fun s => s = "active")).length : Int) < d := by
      constructor
      · exact fun h => h.2
      · intro h
        exact ⟨by omega, h⟩
    unfold refreshApplicationStatus
    simp only [ne_eq, not_true_eq_false, if_false]
    rw [if_congr hiff rfl rfl]
    split_ifs <;> rfl
  · intro hn
    simp [refreshApplicationStatus, hn]

/-- Witness for C8: two desired replicas, one active unit (Waiting), and a
Dying application (no update). -/
theorem refreshStatus_spec_witness :
    refreshApplicationStatus Life.alive (.ok 2) (.ok ["active", "waiting"]) none =
      (some (StVal.waiting, "waiting for units to settle down"), none) ∧
    refreshApplicationStatus Life.dying (.ok 2) (.ok ["active", "waiting"]) none =
      (none, none) := by
  constructor
  · have h := (refreshStatus_spec Life.alive 2 ["active", "waiting"] none
      (.ok 2) (.ok ["active", "waiting"])).1 rfl
    rw [h]
    decide
  · exact (refreshStatus_spec Life.dying 2 ["active", "waiting"] none
      (.ok 2) (.ok ["active", "waiting"])).2 (by decide)

/-- The wait loop exhausts its attempt budget when every probe reports an
existing, terminating application. -/
theorem waitLoop_all_retry (states : Nat → ROr (Bool × Bool))
    (hret : ∀ i, existsVerdict (states i) = Verdict.retry) :
    ∀ fuel i, fuel + i ≤ waitAttempts → waitLoop states fuel i = .attemptsExceeded := by
  intro fuel
  induction fuel with
  | zero => intro i _; rfl
  | succ f ih =>
    intro i hfi
    unfold waitLoop
    rw [hret i]
    by_cases hf : f = 0
    · simp [hf]
    · have h3 : ¬ waitDelaySec * (i + 1) > waitMaxDurationSec := by
        simp only [waitAttempts] at hfi
        simp only [waitDelaySec, waitMaxDurationSec]
        omega
      simp only [hf, if_false, h3]
      exact ih (i + 1) (by omega)

/-- C6: `dead` runs dying, then substrate Delete, then awaits termination
with a bounded retry of 60 attempts at 3-second delay capped at 3 minutes;
termination holds exactly when the application no longer exists; an
existing non-terminating application is a hard error; on success the
has-resources flag is cleared and unit state flushed once, in that order. -/
theorem dead_spec (dyingRes deleteRes clearRes flushRes : Res)
    (states : Nat → ROr (Bool × Bool)) (k : Nat) (b : Bool) :
    (dyingRes = none → deleteRes = none → clearRes = none → flushRes = none →
      waitForTerminated states = .terminated k →
      dead dyingRes deleteRes states clearRes flushRes =
        ⟨[DAct.dyingA, DAct.deleteA, DAct.waitA, DAct.clearA, DAct.flushA], none⟩) ∧
    existsVerdict (.ok (false, b)) = Verdict.success ∧
    existsVerdict (.ok (true, b)) ≠ Verdict.success ∧
    existsVerdict (.ok (true, false)) = Verdict.fatalE EKind.fatal ∧
    ((∀ i, states i = .ok (true, true)) → waitForTerminated states = .attemptsExceeded) ∧
    (waitAttempts = 60 ∧ waitDelaySec = 3 ∧ waitMaxDurationSec = 180) := by
  refine ⟨fun h1 h2 h3 h4 hw => ?_, by simp [existsVerdict], ?_, rfl, fun hall => ?_,
    rfl, rfl, rfl⟩
  · subst h1 h2 h3 h4
    simp [dead, hw, waitRes]
  · cases b <;> simp [existsVerdict]
  · exact waitLoop_all_retry states (fun i => by rw [hall i]; rfl) waitAttempts 0
      (by simp)

/-- Witness for C6: an immediately-gone application completes the full
teardown; a forever-terminating one exhausts the 60 attempts. -/
theorem dead_spec_witness :
    dead none none (fun _ => .ok (false, false)) none none =
      ⟨[DAct.dyingA, DAct.deleteA, DAct.waitA, DAct.clearA, DAct.flushA], none⟩ ∧
    waitForTerminated (fun _ => .ok (true, true)) = .attemptsExceeded :=
  ⟨(dead_spec none none none none (fun _ => .ok (false, false)) 1 false).1
      rfl rfl rfl rfl (by decide),
    (dead_spec none none none none (fun _ => .ok (true, true)) 1 false).2.2.2.2.1
      (fun _ => rfl)⟩

/-- If the consumer is never ready during the race window, the offer times
out and the operation is withdrawn undelivered. -/
theorem raceLoop_never_ready (ready : Nat → Bool) :
    ∀ fuel t0, (∀ t, t0 ≤ t → t ≤ t0 + fuel → ready t = false) →
      raceLoop ready fuel t0 = ⟨some QErr.deadlineExceeded, false⟩ := by
  intro fuel
  induction fuel with
  | zero =>
    intro t0 h
    simp [raceLoop, h t0 le_rfl (by omega)]
  | succ f ih =>
    intro t0 h
    simp only [raceLoop, h t0 le_rfl (by omega), Bool.false_eq_true, if_false]
    exact ih (t0 + 1) (fun t h1 h2 => h t (by omega) (by omega))

/-- C3: an operation whose deadline elapses before the consumer accepts it
makes Enqueue return DeadlineExceeded and is never observed by the
consumer; with zero or negative time-until-deadline Enqueue still makes one
non-blocking offer, succeeding exactly when the consumer is immediately
ready and failing with DeadlineExceeded otherwise. -/
theorem enqueue_deadline_spec (d : Int) (ready : Nat → Bool) :
    ((∀ t, t ≤ d.toNat → ready t = false) →
      enqueueModel d ready = ⟨some QErr.deadlineExceeded, false⟩) ∧
    (d ≤ 0 → (enqueueModel d ready = ⟨none, true⟩ ↔ ready 0 = true)) ∧
    (d ≤ 0 → ready 0 = false →
      enqueueModel d ready = ⟨some QErr.deadlineExceeded, false⟩) := by
  refine ⟨fun h => ?_, fun hd => ?_, fun hd h0 => ?_⟩
  · exact raceLoop_never_ready ready d.toNat 0 (fun t _ h2 => h t (by omega))
  · have hz : d.toNat = 0 := Int.toNat_of_nonpos hd
    rw [enqueueModel, hz]
    cases h0 : ready 0 <;> simp [raceLoop, h0]
  · have hz : d.toNat = 0 := Int.toNat_of_nonpos hd
    rw [enqueueModel, hz]
    simp [raceLoop, h0]

/-- Witness for C3: a deadline already in the past and an idle consumer. -/
theorem enqueue_deadline_spec_witness :
    enqueueModel (-1) (fun _ => false) = ⟨some QErr.deadlineExceeded, false⟩ ∧
    ¬ enqueueModel (-1) (fun _ => false) = ⟨none, true⟩ :=
  ⟨(enqueue_deadline_spec (-1) (fun _ => false)).1 (fun _ _ => rfl),
    fun h => by
      have h2 := ((enqueue_deadline_spec (-1) (fun _ => false)).2.1 (by decide)).mp h
      exact Bool.false_ne_true h2⟩

end CaasApp
